import Mathlib

/-!
Verification development for the statement-rendering / comment-reattachment
core of a GDScript formatter.  The embedded code comes from
`src/gdtoolkit/formatter/formatter.py` (the three post-processing passes) and
`src/gdtoolkit/formatter/class_statement.py` (the class-statement dispatcher).

Conventions of the embedding:
* Python lists become Lean `List`s; Python slices `l[a:b]` become
  `(l.take b).drop a`; negative index `l[-1]` becomes `List.getLastD`.
* Python string builtins (`str.strip`, `str.startswith`, `str.join`) are
  re-implemented over `String.data` as `pyStrip`, `pyStartswith`, `pyJoin`.
* Code that raises an exception (`KeyError` on dispatch, `IndexError` /
  `UnboundLocalError` in handlers) is totalized with `Option`: a raised
  exception becomes `none` (the operation aborts with no partial output).
* Collaborator code that is not under `src/` (block driver, expression
  formatter, context plumbing, constants) is either universally quantified
  (the `Externals` record) or modelled from the spec; each such definition
  carries a doc comment starting `Modelled from the spec:`.
-/

namespace GDToolkit

/-! ## Python string builtins -/

/-- Characters Python's `str.strip()` removes. -/
def isPySpace (c : Char) : Bool :=
  c = ' ' || c = '\t' || c = '\n' || c = '\r' || c = '\x0b' || c = '\x0c'

/-- Model of Python `str.strip()` on the underlying character list. -/
def pyStripList (l : List Char) : List Char :=
  ((l.dropWhile isPySpace).reverse.dropWhile isPySpace).reverse

/-- Model of Python `str.strip()`. -/
def pyStrip (s : String) : String :=
  ⟨pyStripList s.data⟩

/-- Model of Python `s.startswith(p)`. -/
def pyStartswith (s p : String) : Bool :=
  p.data.isPrefixOf s.data

/-- Python `line.strip() == ""`. -/
def isBlankLine (s : String) : Bool :=
  pyStripList s.data = []

/-- Model of Python `sep.join(parts)`. -/
def pyJoin (sep : String) : List String → String
  | [] => ""
  | [x] => x
  | x :: y :: t => x ++ sep ++ pyJoin sep (y :: t)

/-! ## Formatted lines and comment tables -/

/-- A formatted line: optional source line number plus rendered text
(`types.FormattedLine = Tuple[Optional[int], str]`). -/
abbrev FormattedLine := Option Nat × String

abbrev FormattedLines := List FormattedLine

/-- Modelled from the spec: `INLINE_COMMENT_OFFSET` lives in the absent
`constants.py`; the spec fixes only that inline comments are joined by a
fixed horizontal offset.  The concrete width is irrelevant to every claim. -/
def INLINE_COMMENT_OFFSET : Nat := 2

/-- `comment_offset = " " * INLINE_COMMENT_OFFSET` (formatter.py line 82). -/
def commentOffset : String :=
  ⟨List.replicate INLINE_COMMENT_OFFSET ' '⟩

/-! ## `_add_inline_comments` (formatter.py lines 77-98)

The Python loop walks `reversed(formatted_lines)` appending to
`postprocessed_lines` and finally returns `list(reversed(postprocessed_lines))`.
We mirror this by walking `formatted_lines.reverse` and *consing* onto the
accumulator, which keeps the accumulator equal to the reversal of the Python
list; the final un-reversed accumulator is exactly the Python return value. -/

def addInlineLoop : FormattedLines → List (Option String) → FormattedLines → FormattedLines
  | [], _, acc => acc
  | (none, line) :: rest, remaining, acc =>
      addInlineLoop rest remaining ((none, line) :: acc)
  | (some n, line) :: rest, remaining, acc =>
      let comments := remaining.drop n
      let remaining' := remaining.take n
      if comments ≠ [] then
        addInlineLoop rest remaining'
          ((some n, pyJoin commentOffset (line :: comments.filterMap id)) :: acc)
      else
        addInlineLoop rest remaining' ((some n, line) :: acc)

/-- `_add_inline_comments(formatted_lines, comments)`. -/
def add_inline_comments (formatted_lines : FormattedLines)
    (comments : List (Option String)) : FormattedLines :=
  addInlineLoop formatted_lines.reverse comments []

/-! ## `_get_greater_indent` (formatter.py lines 161-166) -/

/-- Modelled from the spec: `context.indent_regex` ("a derived
indentation-detection pattern", context.py is not under src/) matches the
leading indentation whitespace of a line. -/
def leadingIndent (s : String) : String :=
  ⟨s.data.takeWhile (fun c => c = ' ' || c = '\t')⟩

/-- `_get_greater_indent(line_a, line_b, indent_regex)`. -/
def get_greater_indent (line_a line_b : String) : String :=
  let ia := leadingIndent line_a
  let ib := leadingIndent line_b
  if ia.length > ib.length then ia else ib

/-! ## `_add_standalone_comments` (formatter.py lines 102-158) -/

/-- The inner loop over `enumerate(reversed_comments)`: Python consults
`reversed_comments[i + 1]` after emitting a region-close comment, i.e. the
element directly after the current one in the *reversed* batch (`None` and the
empty string are falsy and do not count). -/
def nextCommentIsRegionOpen : List (Option String) → Bool
  | some c :: _ => c ≠ "" && pyStartswith (pyStrip c) "#region"
  | _ => false

def addStandaloneBatch (indentS : String) :
    List (Option String) → FormattedLines → FormattedLines
  | [], acc => acc
  | none :: rest, acc => addStandaloneBatch indentS rest acc
  | some comment :: rest, acc =>
      let stripped := pyStrip comment
      if pyStartswith stripped "#region" then
        addStandaloneBatch indentS rest
          ((none, indentS ++ comment) :: (none, "") :: acc)
      else if pyStartswith stripped "#endregion" then
        let acc1 := acc.dropWhile (fun p => isBlankLine p.2)
        let acc2 := (none, indentS ++ comment) :: acc1
        let acc3 := if nextCommentIsRegionOpen rest then
            (none, "") :: (none, "") :: acc2
          else acc2
        addStandaloneBatch indentS rest acc3
      else
        addStandaloneBatch indentS rest ((none, indentS ++ comment) :: acc)

/-- Python slice `l[a:b]` where `b` may be `None` (slice to the end). -/
def pySliceFrom (l : List (Option String)) (a : Nat) : Option Nat → List (Option String)
  | some b => (l.take b).drop a
  | none => l.drop a

def addStandaloneLoop :
    FormattedLines → List (Option String) → Bool → Option Nat →
    FormattedLines → FormattedLines
  | [], _, _, _, acc => acc
  | (none, line) :: rest, remaining, _, lastNo, acc =>
      addStandaloneLoop rest remaining false lastNo ((none, line) :: acc)
  | (some n, line) :: rest, remaining, inside, lastNo, acc =>
      if inside then
        let comments := pySliceFrom remaining n lastNo
        let remaining' := remaining.take n
        let indentS := get_greater_indent line (acc.headD (none, "")).2
        let acc' := addStandaloneBatch indentS comments.reverse acc
        addStandaloneLoop rest remaining' true lastNo ((some n, line) :: acc')
      else
        addStandaloneLoop rest remaining true (some n) ((some n, line) :: acc)

/-- `_add_standalone_comments(formatted_lines, standalone_comments, indent_regex)`. -/
def add_standalone_comments (formatted_lines : FormattedLines)
    (standalone_comments : List (Option String)) : FormattedLines :=
  addStandaloneLoop formatted_lines.reverse standalone_comments false none []

/-! ## `_cleanup_region_spacing` (formatter.py lines 169-202) -/

/-- Number of consecutive blank lines at the head (the `while` lookahead's
`blank_lines` counter). -/
def countLeadingBlanks : FormattedLines → Nat
  | [] => 0
  | (_, l) :: rest => if isBlankLine l then countLeadingBlanks rest + 1 else 0

/-- Whether the lookahead's first non-blank line starts with `#region`
(reaching the end of the list without a non-blank line inserts nothing). -/
def nextNonBlankIsRegionOpen : FormattedLines → Bool
  | [] => false
  | (_, l) :: rest =>
      if isBlankLine l then nextNonBlankIsRegionOpen rest
      else pyStartswith (pyStrip l) "#region"

/-- Python builds `cleaned` in forward order; we cons onto a reversed
accumulator and reverse once at the end (`cleaned = acc.reverse`). -/
def cleanupLoop : FormattedLines → FormattedLines → FormattedLines
  | [], acc => acc.reverse
  | (n, line) :: rest, acc =>
      if pyStartswith (pyStrip line) "#endregion" then
        let acc1 := acc.dropWhile (fun p => isBlankLine p.2)
        let acc2 := (n, line) :: acc1
        let acc3 := if nextNonBlankIsRegionOpen rest then
            List.replicate (2 - countLeadingBlanks rest) ((none : Option Nat), "") ++ acc2
          else acc2
        cleanupLoop rest acc3
      else
        cleanupLoop rest ((n, line) :: acc)

/-- `_cleanup_region_spacing(formatted_lines)`. -/
def cleanup_region_spacing (formatted_lines : FormattedLines) : FormattedLines :=
  cleanupLoop formatted_lines []

/-- The comment/spacing post-processing pipeline of `format_code`
(formatter.py lines 68-72): inline pass, standalone pass, region cleanup. -/
def format_code_postprocessing (formatted_lines : FormattedLines)
    (inline_comments standalone_comments : List (Option String)) : FormattedLines :=
  cleanup_region_spacing
    (add_standalone_comments
      (add_inline_comments formatted_lines inline_comments)
      standalone_comments)

/-! ## Parse trees and contexts (class_statement.py) -/

/-- A lark parse tree: a `Tree` node carries a kind tag (`data`), ordered
children and a 1-based source line span; a leaf `Token` carries a value. -/
inductive GTree where
  | node (data : String) (children : List GTree) (line end_line : Nat)
  | token (value : String)

def GTree.data : GTree → String
  | .node d _ _ _ => d
  | .token _ => ""

def GTree.children : GTree → List GTree
  | .node _ cs _ _ => cs
  | .token _ => []

def GTree.line : GTree → Nat
  | .node _ _ l _ => l
  | .token _ => 0

def GTree.end_line : GTree → Nat
  | .node _ _ _ e => e
  | .token _ => 0

def GTree.value : GTree → String
  | .node _ _ _ _ => ""
  | .token v => v

/-- Default tree used to totalize Python's (crashing) out-of-range indexing. -/
def gdef : GTree := GTree.token ""

/-- Modelled from the spec: `context.py` is not under src/.  The Context is
the "immutable configuration-plus-cursor value" of spec section 3; the
dispatcher reads only `indent_string` and derives child contexts. -/
structure Context where
  single_indent_size : Nat
  single_indent_string : String
  indent : Nat
  indent_string : String
  previously_processed_line_number : Nat
  max_line_length : Nat

/-- Modelled from the spec: "a child context is derived per nesting
increase", one indent unit deeper, seeded from the last consumed line. -/
def Context.create_child_context (c : Context) (last : Nat) : Context :=
  Context.mk c.single_indent_size c.single_indent_string
    (c.indent + c.single_indent_size)
    (c.indent_string ++ c.single_indent_string) last c.max_line_length

/-- `ExpressionContext(prefix_string, prefix_line, suffix_string, suffix_line)`
from the absent `context.py`; the dispatcher only constructs these and hands
them to the expression formatter. -/
structure ExpressionContext where
  pre_string : String
  pre_line : Nat
  suffix_string : String
  suffix_line : Nat

/-- The Outcome contract: ordered formatted lines plus the last consumed
source line (`types.Outcome = Tuple[FormattedLines, int]`). -/
abbrev Outcome := FormattedLines × Nat

/-- The collaborator functions class_statement.py imports from modules that
are not under src/ (block driver, expression formatter, function-scope
dispatcher, var/simple statement renderers).  The theorems below hold for
every behavior of these collaborators, so they are universally quantified. -/
structure Externals where
  format_simple_statement : String → GTree → Context → Outcome
  format_var_statement : GTree → Context → Outcome
  expression_to_str : GTree → String
  format_expression : GTree → ExpressionContext → Context → Outcome
  format_concrete_expression : GTree → ExpressionContext → Context → Outcome
  format_func_statement : GTree → Context → Outcome
  format_block : List GTree → (GTree → Context → Option Outcome) → Context → Option Outcome

/-! ## The class-statement handlers (class_statement.py lines 38-201) -/

/-- `_format_child_and_prepend_to_outcome` (lines 38-52).  `recFn` is the
recursive call to `format_class_statement`; `lines[0]` on an empty rendering
would raise, hence `none`. -/
def format_child_and_prepend_to_outcome
    (recFn : GTree → Context → Option Outcome)
    (statement : GTree) (context : Context) (pfx : String) : Option Outcome :=
  match recFn (statement.children.getD 0 gdef) context with
  | none => none
  | some (lines, last_processed_line) =>
    match lines with
    | [] => none
    | (first_line_no, first_line) :: rest =>
        some ((first_line_no,
            context.indent_string ++ pfx ++ pyStrip first_line) :: rest,
          last_processed_line)

/-- `_format_const_statement` (lines 55-67).  An argument count outside
4/5/6 leaves `prefix` unbound in Python (a crash), hence `none`. -/
def format_const_statement (E : Externals)
    (statement : GTree) (context : Context) : Option Outcome :=
  let value : GTree := statement.children.getLastD gdef
  let go (pre : String) : Option Outcome :=
    some (E.format_expression value
      (ExpressionContext.mk pre statement.line "" statement.end_line) context)
  if statement.children.length = 4 then
    go ("const " ++ (statement.children.getD 1 gdef).value ++ " = ")
  else if statement.children.length = 5 then
    go ("const " ++ (statement.children.getD 1 gdef).value ++ " := ")
  else if statement.children.length = 6 then
    go ("const " ++ (statement.children.getD 1 gdef).value ++ ": "
        ++ (statement.children.getD 3 gdef).value ++ " = ")
  else none

/-- `_format_signal_statement` (lines 70-82). -/
def format_signal_statement (E : Externals)
    (statement : GTree) (context : Context) : Option Outcome :=
  if statement.children.length = 1
      || (statement.children.getD 1 gdef).children.length = 0 then
    some (E.format_simple_statement
      ("signal " ++ (statement.children.getD 0 gdef).value) statement context)
  else
    some (E.format_concrete_expression (statement.children.getLastD gdef)
      (ExpressionContext.mk
        ("signal " ++ (statement.children.getD 0 gdef).value)
        statement.line "" statement.end_line)
      context)

/-- `_format_classname_statement` (lines 85-95). -/
def format_classname_statement (_E : Externals)
    (statement : GTree) (context : Context) : Option Outcome :=
  some ([(some statement.line,
      context.indent_string ++ "class_name "
        ++ (statement.children.getD 0 gdef).value)],
    statement.line)

/-- `_format_extends_statement` (lines 98-117). -/
def format_extends_statement (E : Externals)
    (statement : GTree) (context : Context) : Option Outcome :=
  let optional_attributes :=
    if statement.children.length = 1 then ""
    else "." ++ pyJoin "." ((statement.children.drop 1).map E.expression_to_str)
  some ([(some statement.line,
      context.indent_string ++ "extends "
        ++ E.expression_to_str (statement.children.getD 0 gdef)
        ++ optional_attributes)],
    statement.line)

/-- `_format_classname_extends_statement` (lines 120-146); `extendee_pos`
is `2 + 1 = 3`. -/
def format_classname_extends_statement (E : Externals)
    (statement : GTree) (context : Context) : Option Outcome :=
  let optional_attributes :=
    if statement.children.length ≤ 4 then ""
    else "." ++ pyJoin "." ((statement.children.drop 4).map E.expression_to_str)
  some ([(some statement.line,
      context.indent_string ++ "class_name "
        ++ (statement.children.getD 1 gdef).value
        ++ " extends "
        ++ E.expression_to_str (statement.children.getD 3 gdef)
        ++ optional_attributes)],
    statement.line)

/-- `_format_class_statement` (lines 149-161): header line plus recursively
driven block at depth+1. -/
def format_class_def_statement (E : Externals)
    (recFn : GTree → Context → Option Outcome)
    (statement : GTree) (context : Context) : Option Outcome :=
  let name := (statement.children.getD 0 gdef).value
  let header : FormattedLines :=
    [(some statement.line, context.indent_string ++ "class " ++ name ++ ":")]
  match E.format_block (statement.children.drop 1) recFn
      (context.create_child_context statement.line) with
  | none => none
  | some (class_lines, last) => some (header ++ class_lines, last)

/-- `_format_func_header` (lines 176-186). -/
def format_func_header (E : Externals)
    (statement : GTree) (context : Context) : Outcome :=
  let name := (statement.children.getD 0 gdef).value
  let has_return_type := statement.children.length > 2
  E.format_concrete_expression (statement.children.getD 1 gdef)
    (ExpressionContext.mk ("func " ++ name) statement.line
      (if has_return_type then
        " -> " ++ (statement.children.getD 2 gdef).value ++ ":"
      else ":")
      statement.end_line)
    context

/-- `_format_func_statement` (lines 164-173): header, then body via the
function-scope sibling dispatcher. -/
def format_func_def_statement (E : Externals)
    (statement : GTree) (context : Context) : Option Outcome :=
  let func_header := statement.children.getD 0 gdef
  let headerOutcome := format_func_header E func_header context
  match E.format_block (statement.children.drop 1)
      (fun t c => some (E.format_func_statement t c))
      (context.create_child_context headerOutcome.2) with
  | none => none
  | some (func_lines, last) => some (headerOutcome.1 ++ func_lines, last)

/-- `_format_enum_statement` (lines 189-200). -/
def format_enum_statement (E : Externals)
    (statement : GTree) (context : Context) : Option Outcome :=
  let actual_enum := statement.children.getD 0 gdef
  let pre :=
    if actual_enum.children.length = 2 then
      "enum " ++ (actual_enum.children.getD 0 gdef).value ++ " "
    else "enum "
  some (E.format_concrete_expression (actual_enum.children.getLastD gdef)
    (ExpressionContext.mk pre statement.line "" statement.end_line) context)

/-- The `handlers` dict of `format_class_statement` (lines 20-34), in source
order, as an association list. -/
def class_statement_handlers (E : Externals)
    (recFn : GTree → Context → Option Outcome) :
    List (String × (GTree → Context → Option Outcome)) :=
  [("pass_stmt", fun s c => some (E.format_simple_statement "pass" s c)),
   ("enum_stmt", format_enum_statement E),
   ("signal_stmt", format_signal_statement E),
   ("extends_stmt", format_extends_statement E),
   ("classname_stmt", format_classname_statement E),
   ("classname_extends_stmt", format_classname_extends_statement E),
   ("class_var_stmt", fun s c => some (E.format_var_statement s c)),
   ("const_stmt", format_const_statement E),
   ("class_def", format_class_def_statement E recFn),
   ("func_def", format_func_def_statement E),
   ("static_func_def", fun s c => format_child_and_prepend_to_outcome recFn s c "static ")]

/-- `format_class_statement` (lines 19-35): build the handler dict, look the
statement's kind tag up, and invoke exactly that handler; a missing tag is a
`KeyError` (`none`).  The recursion (via `static_func_def` and `class_def`)
is bounded by explicit fuel; exhausted fuel also yields `none`. -/
def format_class_statement (E : Externals) :
    Nat → GTree → Context → Option Outcome
  | 0, _, _ => none
  | fuel + 1, statement, context =>
    match (class_statement_handlers E
        (fun t c => format_class_statement E fuel t c)).lookup statement.data with
    | some handler => handler statement context
    | none => none

/-- The kind tags of the handler table, in source order. -/
def class_statement_handler_tags : List String :=
  ["pass_stmt", "enum_stmt", "signal_stmt", "extends_stmt", "classname_stmt",
   "classname_extends_stmt", "class_var_stmt", "const_stmt", "class_def",
   "func_def", "static_func_def"]

/-! ## Spec-side reference definitions

`specInlineLoop` restates the spec's description of the inline pass (claim
C6) with an explicit numeric cursor and absolute slot indices, to be compared
with the implementation `add_inline_comments` above. -/

/-- The slots of the inline table with indices in `[n, cursor)`, in
increasing index order, keeping only the non-empty ones. -/
def claimedSlots (table : List (Option String)) (n cursor : Nat) : List String :=
  (List.range' n (cursor - n)).filterMap (fun i => table.getD i none)

/-- Spec-described inline pass: walk tail-to-head with a cursor; a line with
source number `n` claims the slots in `[n, previous cursor)`, joins the
non-empty ones onto its text separated by the fixed offset, and the cursor
moves down to `n`; synthetic lines pass through unchanged. -/
def specInlineLoop (table : List (Option String)) :
    FormattedLines → Nat → FormattedLines → FormattedLines
  | [], _, acc => acc
  | (none, line) :: rest, cursor, acc =>
      specInlineLoop table rest cursor ((none, line) :: acc)
  | (some n, line) :: rest, cursor, acc =>
      specInlineLoop table rest n
        ((some n, pyJoin commentOffset (line :: claimedSlots table n cursor)) :: acc)

/-- The whole spec-described inline pass: the cursor starts past the table
end. -/
def specInlinePass (formatted_lines : FormattedLines)
    (table : List (Option String)) : FormattedLines :=
  specInlineLoop table formatted_lines.reverse table.length []

/-- Frame relation between an input line and an output line of the inline
pass (claim C10): the source-number component is unchanged, a synthetic line
is textually identical, and the input text is a prefix of the output text. -/
def lineRel (a b : FormattedLine) : Prop :=
  a.1 = b.1 ∧ (a.1 = none → b.2 = a.2) ∧ ∃ s, b.2 = a.2 ++ s

/-! ## Concrete collaborators for witnesses

These instantiate the `Externals` record so that the universally quantified
dispatcher theorems can be evaluated on closed inputs. -/

/-- Modelled from the spec: "Simple statements: rendered as one fixed line at
the statement's own line number" (statement_utils.py is not under src/). -/
def model_format_simple_statement (pfx : String) (s : GTree) (c : Context) : Outcome :=
  ([(some s.line, c.indent_string ++ pfx)], s.line)

/-- Modelled from the spec: the expression formatter renders
prefix + expression + suffix on one line when it fits (expression.py is not
under src/); leaf expressions render as their token value. -/
def model_format_expression (e : GTree) (ec : ExpressionContext) (c : Context) : Outcome :=
  ([(some ec.pre_line, c.indent_string ++ ec.pre_string ++ e.value ++ ec.suffix_string)],
    ec.suffix_line)

/-- Modelled from the spec: a concrete (parenthesized) expression renders its
children's values comma-joined in parentheses between prefix and suffix. -/
def model_format_concrete_expression (e : GTree) (ec : ExpressionContext) (c : Context) : Outcome :=
  ([(some ec.pre_line,
      c.indent_string ++ ec.pre_string
        ++ "(" ++ pyJoin ", " (e.children.map GTree.value) ++ ")"
        ++ ec.suffix_string)],
    ec.suffix_line)

/-- Modelled from the spec: the function-scope sibling dispatcher renders a
`pass` body statement as one line (function_statement.py is not under src/). -/
def model_format_func_statement (s : GTree) (c : Context) : Outcome :=
  ([(some s.line, c.indent_string ++ "pass")], s.line)

/-- Modelled from the spec: the block driver "sequences sibling statements
... returns accumulated lines plus the last source line consumed"
(block.py is not under src/). -/
def model_format_block (stmts : List GTree)
    (dispatch : GTree → Context → Option Outcome) (c : Context) : Option Outcome :=
  stmts.foldl
    (fun acc st => acc.bind (fun o =>
      (dispatch st c).map (fun o2 => (o.1 ++ o2.1, o2.2))))
    (some ([], c.previously_processed_line_number))

/-- Modelled from the spec: `var` declarations render as a single line
(var_statement.py is not under src/). -/
def model_format_var_statement (s : GTree) (c : Context) : Outcome :=
  ([(some s.line, c.indent_string ++ "var x")], s.line)

/-- Modelled from the spec: `expression_to_str` yields the textual form of a
leaf expression (expression_to_str.py is not under src/). -/
def model_expression_to_str (e : GTree) : String :=
  e.value

def modelExternals : Externals :=
  Externals.mk model_format_simple_statement model_format_var_statement
    model_expression_to_str model_format_expression
    model_format_concrete_expression model_format_func_statement
    model_format_block

/-- A concrete top-level context: tab indent, depth 0, cursor 0. -/
def ctx0 : Context := Context.mk 1 "\t" 0 "" 0 100

/-! ## Region-line classification (for the cleanup-pass claims) -/

/-- A line whose stripped text begins with the region-close marker. -/
def isCloseLine (s : String) : Bool :=
  pyStartswith (pyStrip s) "#endregion"

/-- A line whose stripped text begins with the region-open marker. -/
def isOpenLine (s : String) : Bool :=
  pyStartswith (pyStrip s) "#region"

/-- In final document order, no region-close line is immediately preceded by
a blank line. -/
def noBlankBeforeClose (out : FormattedLines) : Prop :=
  ∀ i p q, out[i]? = some p → out[i + 1]? = some q →
    isCloseLine q.2 = true → isBlankLine p.2 = false

/-- The same separation property on `cleanupLoop`'s reversed accumulator
(position `i` holds the document-later line of an adjacent pair). -/
def accSep (acc : FormattedLines) : Prop :=
  ∀ i p q, acc[i]? = some p → acc[i + 1]? = some q →
    isCloseLine p.2 = true → isBlankLine q.2 = false

/-! ## The two-consecutive-regions scenario

The six-line source

```
#region A
pass
#endregion
#region B
pass
#endregion
```

has statements only at lines 2 and 5; the four region comments occupy lines
1, 3, 4 and 6 of the standalone table and the inline table is empty. -/

/-- Modelled from the spec: the renderer's output for the two-region source
above (block.py is not under src/).  The block driver renders the two `pass`
statements as one line each at their own source lines 2 and 5
("Simple statements: rendered as one fixed line at the statement's own line
number"), and `format_code` appends the trailing synthetic empty line
(formatter.py line 67) before the post-processing passes run. -/
def twoRegionsRendered : FormattedLines :=
  [(some 2, "pass"), (some 5, "pass"), (none, "")]

/-- The standalone-comment table of the two-region source: slots 1, 3, 4
and 6 hold the region comments. -/
def twoRegionsStandalone : List (Option String) :=
  [none, some "#region A", none, some "#endregion",
   some "#region B", none, some "#endregion"]

/-- The inline-comment table of the two-region source: no code line carries
a trailing comment. -/
def twoRegionsInline : List (Option String) :=
  List.replicate 7 none

/-! # Theorems -/

/-! ## Helper lemmas -/

theorem pyJoin_cons_eq_append (sep x : String) (xs : List String) :
    ∃ s, pyJoin sep (x :: xs) = x ++ s := by
  cases xs with
  | nil => exact ⟨"", by simp [pyJoin, String.append_empty]⟩
  | cons y t => exact ⟨sep ++ pyJoin sep (y :: t), by simp [pyJoin, String.append_assoc]⟩

theorem lineRel_self (a : FormattedLine) : lineRel a a :=
  ⟨rfl, fun _ => rfl, ⟨"", (String.append_empty _).symm⟩⟩

/-- One unfolding of the inline-pass loop, with the accumulator factored
out: the loop only ever conses transformed lines onto the accumulator, and
each transformed line is frame-related to its input line. -/
theorem addInlineLoop_frame (L : FormattedLines) :
    ∀ rem acc, ∃ out, addInlineLoop L rem acc = out ++ acc ∧
      List.Forall₂ lineRel L.reverse out := by
  induction L with
  | nil => exact fun rem acc => ⟨[], rfl, List.Forall₂.nil⟩
  | cons x rest ih =>
    intro rem acc
    obtain ⟨n, line⟩ := x
    cases n with
    | none =>
        obtain ⟨o, ho, hrel⟩ := ih rem ((none, line) :: acc)
        refine ⟨o ++ [(none, line)], ?_, ?_⟩
        · simpa [addInlineLoop] using ho
        · simpa using List.rel_append hrel
            (List.Forall₂.cons (lineRel_self _) List.Forall₂.nil)
    | some n =>
        by_cases hc : rem.drop n ≠ []
        · obtain ⟨o, ho, hrel⟩ := ih (rem.take n)
            ((some n, pyJoin commentOffset (line :: (rem.drop n).filterMap id)) :: acc)
          have hs : lineRel (some n, line)
              ((some n, pyJoin commentOffset (line :: (rem.drop n).filterMap id)) :
                FormattedLine) :=
            ⟨rfl, fun h => Option.noConfusion h,
              pyJoin_cons_eq_append commentOffset line ((rem.drop n).filterMap id)⟩
          refine ⟨o ++ [(some n,
              pyJoin commentOffset (line :: (rem.drop n).filterMap id))], ?_, ?_⟩
          · simpa [addInlineLoop, hc] using ho
          · simpa using List.rel_append hrel (List.Forall₂.cons hs List.Forall₂.nil)
        · obtain ⟨o, ho, hrel⟩ := ih (rem.take n) ((some n, line) :: acc)
          refine ⟨o ++ [(some n, line)], ?_, ?_⟩
          · simpa [addInlineLoop, hc] using ho
          · simpa using List.rel_append hrel
              (List.Forall₂.cons (lineRel_self _) List.Forall₂.nil)

/-- The Python slice `remaining[n:]`, when `remaining` is the first `c`
slots of the table, is exactly the table's slots with indices in `[n, c)`. -/
theorem take_drop_eq_range'_map (t : List (Option String)) (c n : Nat)
    (hc : c ≤ t.length) :
    (t.take c).drop n = (List.range' n (c - n)).map (fun i => t.getD i none) := by
  apply List.ext_getElem?
  intro i
  rw [List.getElem?_drop, List.getElem?_map]
  by_cases h : i < c - n
  · have h1 : n + i < c := by omega
    have h3 : n + i < t.length := lt_of_lt_of_le h1 hc
    rw [List.getElem?_take_of_lt h1, List.getElem?_range' _ _ h]
    simp [List.getElem?_eq_getElem h3, List.getD_eq_getElem?_getD, Nat.one_mul]
  · have h1 : (List.range' n (c - n))[i]? = none := by
      rw [List.getElem?_eq_none]
      simpa using Nat.le_of_not_lt h
    rw [h1]
    rw [List.getElem?_eq_none]
    · rfl
    · simp only [List.length_take]
      omega

/-- The non-empty comments of the claimed slice, in increasing index
order, are exactly `claimedSlots`. -/
theorem filterMap_take_drop_eq_claimedSlots (t : List (Option String)) (c n : Nat)
    (hc : c ≤ t.length) :
    ((t.take c).drop n).filterMap id = claimedSlots t n c := by
  rw [take_drop_eq_range'_map t c n hc, List.filterMap_map]
  rfl

/-- The implementation loop of the inline pass, run on the unclaimed prefix
`table.take cursor`, agrees with the spec-described cursor loop whenever the
numbered lines it meets (tail-to-head) are descending and bounded by the
cursor. -/
theorem addInlineLoop_eq_spec (table : List (Option String)) (L : FormattedLines) :
    ∀ cursor acc, cursor ≤ table.length →
      List.Pairwise (fun a b => b ≤ a) (L.filterMap Prod.fst) →
      (∀ n ∈ L.filterMap Prod.fst, n ≤ cursor) →
      addInlineLoop L (table.take cursor) acc = specInlineLoop table L cursor acc := by
  induction L with
  | nil => intro cursor acc _ _ _; rfl
  | cons x rest ih =>
    intro cursor acc hc hpw hb
    obtain ⟨n, line⟩ := x
    cases n with
    | none =>
        show addInlineLoop rest (table.take cursor) ((none, line) :: acc)
          = specInlineLoop table rest cursor ((none, line) :: acc)
        exact ih cursor _ hc (by simpa using hpw) (by simpa using hb)
    | some n =>
        have hfm : ((some n, line) :: rest).filterMap
            (Prod.fst : FormattedLine → Option Nat) = n :: rest.filterMap Prod.fst := by
          simp
        rw [hfm] at hpw hb
        have hn : n ≤ cursor := hb n (by simp)
        have hrest : ∀ m ∈ rest.filterMap Prod.fst, m ≤ n :=
          (List.pairwise_cons.mp hpw).1
        have hclaim : ((table.take cursor).drop n).filterMap id
            = claimedSlots table n cursor :=
          filterMap_take_drop_eq_claimedSlots table cursor n hc
        have htake : (table.take cursor).take n = table.take n := by
          rw [List.take_take, Nat.min_eq_left hn]
        have hrec : addInlineLoop rest (table.take n)
            ((some n, pyJoin commentOffset (line :: claimedSlots table n cursor)) :: acc)
            = specInlineLoop table rest n
              ((some n, pyJoin commentOffset (line :: claimedSlots table n cursor)) :: acc) :=
          ih n _ (le_trans hn hc) (List.pairwise_cons.mp hpw).2 hrest
        by_cases hne : (table.take cursor).drop n ≠ []
        · show addInlineLoop ((some n, line) :: rest) (table.take cursor) acc
            = specInlineLoop table ((some n, line) :: rest) cursor acc
          rw [addInlineLoop, specInlineLoop, if_pos hne, htake, hclaim]
          exact hrec
        · have hempty : (table.take cursor).drop n = [] := not_not.mp hne
          have hclaim0 : claimedSlots table n cursor = [] := by
            rw [← hclaim, hempty]; rfl
          have htext : pyJoin commentOffset (line :: claimedSlots table n cursor)
              = line := by
            rw [hclaim0]
            rfl
          show addInlineLoop ((some n, line) :: rest) (table.take cursor) acc
            = specInlineLoop table ((some n, line) :: rest) cursor acc
          rw [addInlineLoop, specInlineLoop, if_neg hne, htake, htext]
          rw [htext] at hrec
          exact hrec

/-! ## C1 — comment preservation fails: the standalone pass silently drops
every table slot whose index is below the first numbered line's number. -/

/-- C1: evaluating the post-processing pipeline of `format_code` at the
rendering of the two-line source `"# hello\npass"` (one statement at line 2,
standalone-comment table slot 1 = `"# hello"`, empty inline table): the
comment is absent from the output, so the multiset of comment texts in the
output does not equal the multiset in the input. -/
theorem spec_C1 :
    format_code_postprocessing [(some 2, "pass"), (none, "")]
      [none, none, none] [none, some "# hello", none]
      = [(some 2, "pass"), (none, "")] := by
  decide

/-! ## C3 — the blank line lands after the region-open comment, not before. -/

/-- C3: the standalone pass on lines `pass`(1), `pass2`(5) with the claimed
comment `#region X` in slot 3 emits the blank line *after* the region-open
line in final document order (the pass appends the blank first to a
reversed accumulator), contradicting the claim that it precedes it. -/
theorem spec_C3 :
    add_standalone_comments [(some 1, "pass"), (some 5, "pass2"), (none, "")]
      [none, none, none, some "#region X", none, none]
      = [(some 1, "pass"), (none, "#region X"), (none, ""),
         (some 5, "pass2"), (none, "")] := by
  decide

/-! ## C4 — the region-close handling acts on the wrong sides. -/

/-- C4: the standalone pass on lines `pass`(1), `pass2`(7) with claimed
comments `#endregion` (slot 2) followed in forward order by `#region B`
(slot 3) emits them with *zero* blank lines between the region-close line
and the following region-open line (the code inspects the comment preceding
it in document order and inserts its blanks before the close), contradicting
the claimed two inserted blank lines after it. -/
theorem spec_C4 :
    add_standalone_comments [(some 1, "pass"), (some 7, "pass2"), (none, "")]
      [none, none, some "#endregion", some "#region B", none, none, none]
      = [(some 1, "pass"), (none, "#endregion"), (none, "#region B"),
         (none, ""), (some 7, "pass2"), (none, "")] := by
  decide

/-! ## C6 — the inline pass refines its spec description. -/

/-- C6: whenever the numbered lines appear in non-decreasing source order
bounded by the table length (the spec's cursor invariant), the
implementation of the inline pass coincides with the spec-described
tail-to-head cursor scan `specInlinePass`: every numbered line claims
exactly the slots in `[n, previous cursor)`, joins the non-empty ones in
increasing index order separated by the fixed offset, and the claimed range
is removed from further consideration; synthetic lines pass through
unchanged and claim nothing. -/
theorem spec_C6 (formatted_lines : FormattedLines) (comments : List (Option String))
    (hmono : List.Pairwise (· ≤ ·) (formatted_lines.filterMap Prod.fst))
    (hbound : ∀ n ∈ formatted_lines.filterMap Prod.fst, n ≤ comments.length) :
    add_inline_comments formatted_lines comments
      = specInlinePass formatted_lines comments := by
  have h1 : List.Pairwise (fun a b => b ≤ a)
      (formatted_lines.reverse.filterMap Prod.fst) := by
    rw [List.filterMap_reverse]
    exact List.pairwise_reverse.mpr hmono
  have h2 : ∀ n ∈ formatted_lines.reverse.filterMap Prod.fst, n ≤ comments.length := by
    rw [List.filterMap_reverse]
    intro n hn
    exact hbound n (List.mem_reverse.mp hn)
  have h3 := addInlineLoop_eq_spec comments formatted_lines.reverse
    comments.length [] le_rfl h1 h2
  rw [List.take_length] at h3
  exact h3

/-- Witness for C6: concrete numbered lines 1, 2 and a synthetic trailer
with a two-slot inline table satisfy both hypotheses and the refinement. -/
theorem spec_C6_witness :
    List.Pairwise (· ≤ ·)
      (([(some 1, "a"), (some 2, "b"), (none, "")] : FormattedLines).filterMap Prod.fst)
    ∧ (∀ n ∈ ([(some 1, "a"), (some 2, "b"), (none, "")] : FormattedLines).filterMap Prod.fst,
        n ≤ ([none, some "# c1", some "# c2"] : List (Option String)).length)
    ∧ add_inline_comments [(some 1, "a"), (some 2, "b"), (none, "")]
        [none, some "# c1", some "# c2"]
      = specInlinePass [(some 1, "a"), (some 2, "b"), (none, "")]
        [none, some "# c1", some "# c2"] :=
  ⟨by decide, by decide,
    spec_C6 [(some 1, "a"), (some 2, "b"), (none, "")]
      [none, some "# c1", some "# c2"] (by decide) (by decide)⟩

/-! ## C10 — frame property of the inline pass. -/

/-! ## C7, C8, C9 — the class-statement dispatcher. -/

/-- Lookups in a string-keyed association list succeed exactly on the
stored keys. -/
theorem lookup_isSome_iff_mem_keys {β : Type _} (l : List (String × β)) (a : String) :
    (l.lookup a).isSome = true ↔ a ∈ l.map Prod.fst := by
  induction l with
  | nil => simp [List.lookup]
  | cons p t ih =>
    obtain ⟨k, v⟩ := p
    by_cases h : a = k
    · subst h
      simp [List.lookup]
    · simp [List.lookup, beq_false_of_ne h, ih, h]

/-- C7: dispatching a `static_func_def` node renders its underlying child
statement with the same context, then returns that rendering unchanged
except that the first line's text becomes this context's indent, `"static "`
and the stripped original text; the first line's source number, the
remaining lines, and the last consumed line are untouched. -/
theorem spec_C7 (E : Externals) (fuel : Nat) (context : Context) (child : GTree)
    (l el : Nat) (n0 : Option Nat) (t0 : String) (rest : FormattedLines) (last : Nat)
    (h : format_class_statement E fuel child context = some ((n0, t0) :: rest, last)) :
    format_class_statement E (fuel + 1) (GTree.node "static_func_def" [child] l el) context
      = some ((n0, context.indent_string ++ "static " ++ pyStrip t0) :: rest, last) := by
  have h1 : format_class_statement E (fuel + 1)
        (GTree.node "static_func_def" [child] l el) context
      = format_child_and_prepend_to_outcome
          (fun t c => format_class_statement E fuel t c)
          (GTree.node "static_func_def" [child] l el) context "static " := rfl
  rw [h1, format_child_and_prepend_to_outcome]
  simp only [GTree.children, List.getD_cons_zero]
  rw [h]

/-- Witness for C7: with the modelled collaborators, `static func foo():`
with body `pass` renders to first line `static func foo():` (indent applied
exactly once) above the unchanged body line. -/
theorem spec_C7_witness :
    format_class_statement modelExternals 1
        (GTree.node "func_def"
          [GTree.node "func_header" [GTree.token "foo", GTree.node "func_args" [] 1 1] 1 1,
           GTree.node "pass_stmt" [] 2 2] 1 2) ctx0
      = some ([(some 1, "func foo():"), (some 2, "\tpass")], 2)
    ∧ format_class_statement modelExternals 2
        (GTree.node "static_func_def"
          [GTree.node "func_def"
            [GTree.node "func_header" [GTree.token "foo", GTree.node "func_args" [] 1 1] 1 1,
             GTree.node "pass_stmt" [] 2 2] 1 2] 1 2) ctx0
      = some ([(some 1, "static func foo():"), (some 2, "\tpass")], 2) := by
  refine ⟨by decide, ?_⟩
  rw [spec_C7 modelExternals 1 ctx0
    (GTree.node "func_def"
      [GTree.node "func_header" [GTree.token "foo", GTree.node "func_args" [] 1 1] 1 1,
       GTree.node "pass_stmt" [] 2 2] 1 2) 1 2
    (some 1) "func foo():" [(some 2, "\tpass")] 2 (by decide)]
  decide

/-- C8: dispatching a `const_stmt` selects the prefix purely by argument
count — `const X = ` at four children, `const X := ` at five, and
`const X: T = ` at six — and in each case delegates the last child (the
value expression) to the expression formatter with that prefix and an empty
suffix. -/
theorem spec_C8 (E : Externals) (fuel : Nat) (context : Context)
    (cs : List GTree) (l el : Nat) :
    (cs.length = 4 →
      format_class_statement E (fuel + 1) (GTree.node "const_stmt" cs l el) context
        = some (E.format_expression (cs.getLastD gdef)
            (ExpressionContext.mk ("const " ++ (cs.getD 1 gdef).value ++ " = ") l "" el)
            context))
    ∧ (cs.length = 5 →
      format_class_statement E (fuel + 1) (GTree.node "const_stmt" cs l el) context
        = some (E.format_expression (cs.getLastD gdef)
            (ExpressionContext.mk ("const " ++ (cs.getD 1 gdef).value ++ " := ") l "" el)
            context))
    ∧ (cs.length = 6 →
      format_class_statement E (fuel + 1) (GTree.node "const_stmt" cs l el) context
        = some (E.format_expression (cs.getLastD gdef)
            (ExpressionContext.mk
              ("const " ++ (cs.getD 1 gdef).value ++ ": "
                ++ (cs.getD 3 gdef).value ++ " = ") l "" el)
            context)) := by
  have h1 : format_class_statement E (fuel + 1)
        (GTree.node "const_stmt" cs l el) context
      = format_const_statement E (GTree.node "const_stmt" cs l el) context := rfl
  refine ⟨?_, ?_, ?_⟩ <;> intro hlen <;>
    rw [h1, format_const_statement] <;>
    simp [GTree.children, GTree.line, GTree.end_line, hlen]

/-- Witness for C8: `const X = 1` (four children) renders back to itself
under the modelled single-line expression formatter. -/
theorem spec_C8_witness :
    (([GTree.token "const", GTree.token "X", GTree.token "=", GTree.token "1"] :
        List GTree).length = 4)
    ∧ format_class_statement modelExternals 1
        (GTree.node "const_stmt"
          [GTree.token "const", GTree.token "X", GTree.token "=", GTree.token "1"] 1 1) ctx0
      = some ([(some 1, "const X = 1")], 1) := by
  refine ⟨rfl, ?_⟩
  rw [(spec_C8 modelExternals 0 ctx0
    [GTree.token "const", GTree.token "X", GTree.token "=", GTree.token "1"] 1 1).1 rfl]
  decide

/-- C9: the dispatcher's handler table maps each of its eleven distinct kind
tags to exactly one handler; a statement whose tag is in the table has its
(unique) handler invoked, and a statement whose tag is not in the table
aborts the operation with no Outcome — dispatch fails exactly on
unrecognized tags. -/
theorem spec_C9 (E : Externals) (fuel : Nat) (statement : GTree) (context : Context) :
    ((class_statement_handlers E (fun t c => format_class_statement E fuel t c)).map
        Prod.fst = class_statement_handler_tags
      ∧ class_statement_handler_tags.Nodup)
    ∧ (statement.data ∈ class_statement_handler_tags →
        ∃ handler,
          (class_statement_handlers E
              (fun t c => format_class_statement E fuel t c)).lookup statement.data
            = some handler
          ∧ format_class_statement E (fuel + 1) statement context
            = handler statement context)
    ∧ (statement.data ∉ class_statement_handler_tags →
        format_class_statement E (fuel + 1) statement context = none) := by
  have hmap : (class_statement_handlers E
      (fun t c => format_class_statement E fuel t c)).map Prod.fst
      = class_statement_handler_tags := rfl
  refine ⟨⟨hmap, by decide⟩, ?_, ?_⟩
  · intro hmem
    have hsome : ((class_statement_handlers E
        (fun t c => format_class_statement E fuel t c)).lookup statement.data).isSome
        = true := by
      rw [lookup_isSome_iff_mem_keys, hmap]
      exact hmem
    obtain ⟨handler, hh⟩ := Option.isSome_iff_exists.mp hsome
    refine ⟨handler, hh, ?_⟩
    simp only [format_class_statement, hh]
  · intro hmem
    have hnone : (class_statement_handlers E
        (fun t c => format_class_statement E fuel t c)).lookup statement.data = none := by
      rw [← Option.not_isSome_iff_eq_none]
      rw [lookup_isSome_iff_mem_keys, hmap]
      exact hmem
    simp only [format_class_statement, hnone]

/-- Witness for C9: the unrecognized tag `breakpoint_stmt` reaches the
dispatcher and the whole operation aborts with no Outcome. -/
theorem spec_C9_witness :
    ("breakpoint_stmt" ∉ class_statement_handler_tags)
    ∧ format_class_statement modelExternals 1
        (GTree.node "breakpoint_stmt" [] 1 1) ctx0 = none := by
  refine ⟨by decide, ?_⟩
  exact (spec_C9 modelExternals 0 (GTree.node "breakpoint_stmt" [] 1 1) ctx0).2.2
    (by decide)

/-! ## C5 — the region-spacing cleanup pass. -/

theorem data_pyStrip (s : String) : (pyStrip s).data = pyStripList s.data := rfl

theorem isCloseLine_eq_false_of_blank (s : String) (h : isBlankLine s = true) :
    isCloseLine s = false := by
  have h' : pyStripList s.data = [] := of_decide_eq_true h
  rw [isCloseLine, pyStartswith, data_pyStrip, h']
  decide

theorem isBlankLine_eq_false_of_open (s : String) (h : isOpenLine s = true) :
    isBlankLine s = false := by
  cases hb : isBlankLine s with
  | false => rfl
  | true =>
    exfalso
    have h' : pyStripList s.data = [] := of_decide_eq_true hb
    rw [isOpenLine, pyStartswith, data_pyStrip, h'] at h
    exact absurd h (by decide)

theorem isCloseLine_eq_false_of_open (s : String) (h : isOpenLine s = true) :
    isCloseLine s = false := by
  cases hc : isCloseLine s with
  | false => rfl
  | true =>
    exfalso
    rw [isOpenLine, pyStartswith] at h
    rw [isCloseLine, pyStartswith] at hc
    have p1 : "#region".data <+: (pyStrip s).data := List.isPrefixOf_iff_prefix.mp h
    have p2 : "#endregion".data <+: (pyStrip s).data := List.isPrefixOf_iff_prefix.mp hc
    rcases List.prefix_or_prefix_of_prefix p1 p2 with hp | hp
    · exact absurd hp (by decide)
    · exact absurd hp (by decide)

theorem accSep_nil : accSep [] := by
  intro i p q hp _ _
  simp at hp

theorem accSep_cons (x : FormattedLine) (t : FormattedLines) (ht : accSep t)
    (hx : isCloseLine x.2 = true → ∀ q, t.head? = some q → isBlankLine q.2 = false) :
    accSep (x :: t) := by
  intro i p q hp hq hclose
  cases i with
  | zero =>
      have hpx : p = x := by simpa using hp.symm
      have hq0 : t.head? = some q := by
        rw [List.head?_eq_getElem?]
        simpa using hq
      exact hx (hpx ▸ hclose) q hq0
  | succ j =>
      exact ht j p q (by simpa using hp) (by simpa using hq) hclose

theorem accSep_cons_nonclose (x : FormattedLine) (t : FormattedLines)
    (hx : isCloseLine x.2 = false) (ht : accSep t) : accSep (x :: t) :=
  accSep_cons x t ht (fun hcl => absurd hcl (by simp [hx]))

theorem accSep_drop (l : FormattedLines) (k : Nat) (h : accSep l) :
    accSep (l.drop k) := by
  intro i p q hp hq
  rw [List.getElem?_drop] at hp hq
  have he : k + (i + 1) = (k + i) + 1 := by omega
  rw [he] at hq
  exact h (k + i) p q hp hq

theorem dropWhile_eq_drop_exists {α : Type _} (p : α → Bool) (l : List α) :
    ∃ k, l.dropWhile p = l.drop k := by
  induction l with
  | nil => exact ⟨0, rfl⟩
  | cons x t ih =>
    by_cases hx : p x = true
    · obtain ⟨k, hk⟩ := ih
      exact ⟨k + 1, by simp [List.dropWhile_cons, hx, hk]⟩
    · exact ⟨0, by simp [List.dropWhile_cons, hx]⟩

theorem accSep_dropWhile_blank (l : FormattedLines) (h : accSep l) :
    accSep (l.dropWhile (fun p => isBlankLine p.2)) := by
  obtain ⟨k, hk⟩ := dropWhile_eq_drop_exists (fun p => isBlankLine p.2) l
  rw [hk]
  exact accSep_drop l k h

theorem accSep_replicate_blank_append (k : Nat) (acc : FormattedLines)
    (h : accSep acc) :
    accSep (List.replicate k ((none : Option Nat), "") ++ acc) := by
  induction k with
  | zero => simpa using h
  | succ m ih =>
      rw [List.replicate_succ, List.cons_append]
      exact accSep_cons_nonclose _ _ (by decide) ih

theorem cleanupLoop_cons_close (n : Option Nat) (line : String)
    (rest acc : FormattedLines)
    (hcl : pyStartswith (pyStrip line) "#endregion" = true) :
    cleanupLoop ((n, line) :: rest) acc
      = cleanupLoop rest
          (if nextNonBlankIsRegionOpen rest then
            List.replicate (2 - countLeadingBlanks rest) ((none : Option Nat), "")
              ++ ((n, line) :: acc.dropWhile (fun p => isBlankLine p.2))
          else (n, line) :: acc.dropWhile (fun p => isBlankLine p.2)) := by
  rw [cleanupLoop, if_pos hcl]

theorem cleanupLoop_cons_nonclose (n : Option Nat) (line : String)
    (rest acc : FormattedLines)
    (hcl : pyStartswith (pyStrip line) "#endregion" = false) :
    cleanupLoop ((n, line) :: rest) acc = cleanupLoop rest ((n, line) :: acc) := by
  rw [cleanupLoop, if_neg (by simp [hcl])]

theorem cleanupLoop_accSep (L : FormattedLines) :
    ∀ acc, accSep acc → noBlankBeforeClose (cleanupLoop L acc) := by
  induction L with
  | nil =>
      intro acc h i p q hp hq hclose
      rw [show cleanupLoop [] acc = acc.reverse from rfl] at hp hq
      have hi1 : i + 1 < acc.length := by
        have := (List.getElem?_eq_some_iff.mp hq).1
        simpa using this
      have hi : i < acc.length := by omega
      rw [List.getElem?_reverse hi] at hp
      rw [List.getElem?_reverse hi1] at hq
      have he : acc.length - 1 - i = (acc.length - 1 - (i + 1)) + 1 := by omega
      rw [he] at hp
      exact h (acc.length - 1 - (i + 1)) q p hq hp hclose
  | cons x rest ih =>
      intro acc h
      obtain ⟨n, line⟩ := x
      cases hcl : pyStartswith (pyStrip line) "#endregion" with
      | true =>
          rw [cleanupLoop_cons_close n line rest acc hcl]
          apply ih
          have hbase : accSep ((n, line) :: acc.dropWhile (fun p => isBlankLine p.2)) := by
            apply accSep_cons _ _ (accSep_dropWhile_blank acc h)
            intro _ q hq
            have hmatch := List.head?_dropWhile_not (fun p => isBlankLine p.2) acc
            rw [hq] at hmatch
            simpa using hmatch
          by_cases hnb : nextNonBlankIsRegionOpen rest = true
          · rw [if_pos hnb]
            exact accSep_replicate_blank_append _ _ hbase
          · rw [if_neg hnb]
            exact hbase
      | false =>
          rw [cleanupLoop_cons_nonclose n line rest acc hcl]
          apply ih
          exact accSep_cons_nonclose (n, line) acc (by simpa [isCloseLine] using hcl) h

theorem cleanupLoop_append_exists (A : FormattedLines) :
    ∀ (S acc : FormattedLines), ∃ acc',
      cleanupLoop (A ++ S) acc = cleanupLoop S acc' := by
  induction A with
  | nil => exact fun S acc => ⟨acc, rfl⟩
  | cons x A' ih =>
      intro S acc
      obtain ⟨n, line⟩ := x
      cases hcl : pyStartswith (pyStrip line) "#endregion" with
      | true =>
          rw [List.cons_append, cleanupLoop_cons_close n line (A' ++ S) acc hcl]
          exact ih S _
      | false =>
          rw [List.cons_append, cleanupLoop_cons_nonclose n line (A' ++ S) acc hcl]
          exact ih S _

theorem cleanupLoop_blanks_append (bs : FormattedLines) :
    ∀ (T acc : FormattedLines), (∀ x ∈ bs, isBlankLine x.2 = true) →
      cleanupLoop (bs ++ T) acc = cleanupLoop T (bs.reverse ++ acc) := by
  induction bs with
  | nil => intro T acc _; simp
  | cons x bs' ih =>
      intro T acc hb
      obtain ⟨n, line⟩ := x
      have hbx : isBlankLine line = true := hb (n, line) (List.mem_cons_self _ _)
      have hcl : pyStartswith (pyStrip line) "#endregion" = false := by
        have := isCloseLine_eq_false_of_blank line hbx
        simpa [isCloseLine] using this
      rw [List.cons_append, cleanupLoop_cons_nonclose n line (bs' ++ T) acc hcl]
      rw [ih T ((n, line) :: acc) (fun y hy => hb y (List.mem_cons_of_mem _ hy))]
      congr 1
      simp

theorem dropWhile_append_barrier {α : Type _} (q : α → Bool) (u : List α)
    (p : α) (t : List α) (hp : q p = false) :
    ∃ w, (u ++ p :: t).dropWhile q = w ++ p :: t := by
  induction u with
  | nil => exact ⟨[], by simp [List.dropWhile_cons, hp]⟩
  | cons x u' ih =>
      by_cases hx : q x = true
      · obtain ⟨w, hw⟩ := ih
        exact ⟨w, by simp [List.dropWhile_cons, hx, hw]⟩
      · exact ⟨x :: u', by simp [List.dropWhile_cons, hx]⟩

theorem cleanupLoop_barrier (B : FormattedLines) :
    ∀ (u : FormattedLines) (pl : FormattedLine) (acc₀ : FormattedLines),
      isBlankLine pl.2 = false →
      ∃ out, cleanupLoop B (u ++ pl :: acc₀) = acc₀.reverse ++ pl :: out := by
  induction B with
  | nil =>
      intro u pl acc₀ _
      refine ⟨u.reverse, ?_⟩
      show (u ++ pl :: acc₀).reverse = acc₀.reverse ++ pl :: u.reverse
      simp
  | cons x B' ih =>
      intro u pl acc₀ hp
      obtain ⟨n, line⟩ := x
      cases hcl : pyStartswith (pyStrip line) "#endregion" with
      | false =>
          rw [cleanupLoop_cons_nonclose n line B' _ hcl]
          have h1 := ih ((n, line) :: u) pl acc₀ hp
          simpa using h1
      | true =>
          obtain ⟨w, hw⟩ := dropWhile_append_barrier
            (fun p => isBlankLine p.2) u pl acc₀ hp
          rw [cleanupLoop_cons_close n line B' _ hcl, hw]
          by_cases hnb : nextNonBlankIsRegionOpen B' = true
          · rw [if_pos hnb]
            have h1 := ih (List.replicate (2 - countLeadingBlanks B')
              ((none : Option Nat), "") ++ ((n, line) :: w)) pl acc₀ hp
            simpa [List.append_assoc] using h1
          · rw [if_neg hnb]
            have h1 := ih ((n, line) :: w) pl acc₀ hp
            simpa using h1

theorem countLeadingBlanks_blanks_append (bs : FormattedLines) (r : FormattedLine)
    (B : FormattedLines) (hb : ∀ x ∈ bs, isBlankLine x.2 = true)
    (hr : isBlankLine r.2 = false) :
    countLeadingBlanks (bs ++ r :: B) = bs.length := by
  induction bs with
  | nil =>
      obtain ⟨rn, rl⟩ := r
      simp [countLeadingBlanks, hr]
  | cons x bs' ih =>
      obtain ⟨n, line⟩ := x
      have hbx : isBlankLine line = true := hb (n, line) (List.mem_cons_self _ _)
      have := ih (fun y hy => hb y (List.mem_cons_of_mem _ hy))
      simp [countLeadingBlanks, hbx, this]

theorem nextNonBlank_blanks_append (bs : FormattedLines) (r : FormattedLine)
    (B : FormattedLines) (hb : ∀ x ∈ bs, isBlankLine x.2 = true)
    (hr : isBlankLine r.2 = false) (hro : isOpenLine r.2 = true) :
    nextNonBlankIsRegionOpen (bs ++ r :: B) = true := by
  induction bs with
  | nil =>
      obtain ⟨rn, rl⟩ := r
      simp only [isOpenLine] at hro
      simp [nextNonBlankIsRegionOpen, hr, hro]
  | cons x bs' ih =>
      obtain ⟨n, line⟩ := x
      have hbx : isBlankLine line = true := hb (n, line) (List.mem_cons_self _ _)
      have := ih (fun y hy => hb y (List.mem_cons_of_mem _ hy))
      simp [nextNonBlankIsRegionOpen, hbx, this]

theorem cleanup_region_spacing_close_open (A B : FormattedLines)
    (c r : FormattedLine) (bs : FormattedLines)
    (hc : isCloseLine c.2 = true) (hr : isOpenLine r.2 = true)
    (hb : ∀ x ∈ bs, isBlankLine x.2 = true) :
    ∃ front rest,
      cleanup_region_spacing (A ++ c :: (bs ++ r :: B))
        = front ++ c :: (List.replicate (2 - bs.length) ((none : Option Nat), "")
            ++ (bs ++ r :: rest))
      ∧ ∀ x, front.getLast? = some x → isBlankLine x.2 = false := by
  obtain ⟨cn, cl⟩ := c
  obtain ⟨rn, rl⟩ := r
  simp only at hc hr
  obtain ⟨acc', hA⟩ := cleanupLoop_append_exists A ((cn, cl) :: (bs ++ (rn, rl) :: B)) []
  rw [cleanup_region_spacing, hA]
  have hcl' : pyStartswith (pyStrip cl) "#endregion" = true := by
    simpa [isCloseLine] using hc
  rw [cleanupLoop_cons_close cn cl _ acc' hcl']
  have hrb : isBlankLine rl = false := isBlankLine_eq_false_of_open rl hr
  have hcount : countLeadingBlanks (bs ++ (rn, rl) :: B) = bs.length :=
    countLeadingBlanks_blanks_append bs (rn, rl) B hb hrb
  have hnext : nextNonBlankIsRegionOpen (bs ++ (rn, rl) :: B) = true :=
    nextNonBlank_blanks_append bs (rn, rl) B hb hrb hr
  rw [if_pos hnext, hcount]
  rw [cleanupLoop_blanks_append bs ((rn, rl) :: B) _ hb]
  have hrc : pyStartswith (pyStrip rl) "#endregion" = false := by
    have := isCloseLine_eq_false_of_open rl hr
    simpa [isCloseLine] using this
  rw [cleanupLoop_cons_nonclose rn rl B _ hrc]
  obtain ⟨out, hout⟩ := cleanupLoop_barrier B [] (rn, rl)
    (bs.reverse ++ (List.replicate (2 - bs.length) ((none : Option Nat), "")
      ++ ((cn, cl) :: acc'.dropWhile (fun p => isBlankLine p.2)))) hrb
  simp only [List.nil_append] at hout
  rw [hout]
  refine ⟨(acc'.dropWhile (fun p => isBlankLine p.2)).reverse, out, ?_, ?_⟩
  · simp [List.reverse_append, List.append_assoc]
  · intro x hx
    rw [List.getLast?_reverse] at hx
    have hmatch := List.head?_dropWhile_not (fun p => isBlankLine p.2) acc'
    rw [hx] at hmatch
    simpa using hmatch

/-- C5: (1) after the cleanup pass, no region-close line is immediately
preceded by a blank line, for every input; (2) for every input decomposing
as `A ++ close ++ blanks ++ open ++ B` with only blanks between the close
and the open, the output keeps the close and open with exactly the deficit
`2 - blanks.length` of inserted blank lines plus the original blanks between
them (so exactly two blank lines whenever at most two were present — the
pass inserts only missing blanks and removes none between such a pair), and
nothing blank immediately precedes the close; (3) end to end, running the
whole post-processing pipeline of `format_code` on the rendering of the
two-consecutive-regions source yields exactly two blank lines between the
first region-close line and the second region-open line, and no blank line
immediately before any region-close line. -/
theorem spec_C5 :
    (∀ L : FormattedLines, noBlankBeforeClose (cleanup_region_spacing L))
    ∧ (∀ (A B : FormattedLines) (c r : FormattedLine) (bs : FormattedLines),
        isCloseLine c.2 = true → isOpenLine r.2 = true →
        (∀ x ∈ bs, isBlankLine x.2 = true) →
        ∃ front rest,
          cleanup_region_spacing (A ++ c :: (bs ++ r :: B))
            = front ++ c :: (List.replicate (2 - bs.length) ((none : Option Nat), "")
                ++ (bs ++ r :: rest))
          ∧ ∀ x, front.getLast? = some x → isBlankLine x.2 = false)
    ∧ format_code_postprocessing twoRegionsRendered twoRegionsInline twoRegionsStandalone
        = [(some 2, "pass"), (none, "#endregion"), (none, ""), (none, ""),
           (none, "#region B"), (none, ""), (some 5, "pass"), (none, "")] :=
  ⟨fun L => cleanupLoop_accSep L [] accSep_nil, cleanup_region_spacing_close_open,
    by decide⟩

/-- Witness for C5: applying part (1) to the cleanup of
`#region A / blank / blank / #endregion` (whose close line has its preceding
blanks stripped), and part (2) to two adjacent regions
`#endregion / #region B`, where exactly two blank lines are inserted. -/
theorem spec_C5_witness :
    isBlankLine ((none : Option Nat), "#region A").2 = false
    ∧ (∃ front rest,
        cleanup_region_spacing ([] ++ ((none : Option Nat), "#endregion")
            :: ([] ++ ((none : Option Nat), "#region B") :: []))
          = front ++ ((none : Option Nat), "#endregion")
              :: (List.replicate (2 - ([] : FormattedLines).length)
                    ((none : Option Nat), "")
                ++ ([] ++ ((none : Option Nat), "#region B") :: rest))
        ∧ ∀ x, front.getLast? = some x → isBlankLine x.2 = false) := by
  constructor
  · exact spec_C5.1
      [((none : Option Nat), "#region A"), (none, ""), (none, ""), (none, "#endregion")]
      0 ((none : Option Nat), "#region A") ((none : Option Nat), "#endregion")
      (by decide) (by decide) (by decide)
  · exact spec_C5.2.1 [] [] ((none : Option Nat), "#endregion")
      ((none : Option Nat), "#region B") [] (by decide) (by decide) (by decide)

/-- C10: the inline-comment pass maps its input lines one-to-one and in
order: every output line keeps its input's source-number component, every
synthetic (unnumbered) line is textually unchanged, and every numbered
line's input text is a prefix of its output text. -/
theorem spec_C10 (formatted_lines : FormattedLines) (comments : List (Option String)) :
    List.Forall₂ lineRel formatted_lines
      (add_inline_comments formatted_lines comments) := by
  obtain ⟨out, ho, hrel⟩ := addInlineLoop_frame formatted_lines.reverse comments []
  rw [add_inline_comments, ho, List.append_nil]
  simpa using hrel

end GDToolkit
